import Mathlib

set_option maxHeartbeats 1000000
set_option maxRecDepth 100000

/-!
Verification development for the explicit-free-list memory allocator in
`src/malloc.c`.  The heap is modelled as a word-addressed store
`mem : Nat → Nat`: every address that the program uses is a multiple of 4
and holds one 32-bit word, exactly as the C code's `unsigned int` loads and
stores.  Pointers are byte addresses (`Nat`), with `0` playing the role of
`NULL`.  `size_t` arithmetic is modelled on `Nat`, with an explicit
`% 2 ^ 64` at the one place where the C computation can wrap
(the size adjustment and the remainder subtraction), and stores truncate to
32 bits exactly as an `unsigned int` store does.
-/

/-- Word size in bytes (src/malloc.c line 7). -/
def WSIZE : Nat := 4

/-- Double word size in bytes (src/malloc.c line 8). -/
def DSIZE : Nat := 8

/-- Default chunk size for heap extension (src/malloc.c line 9). -/
def DEFAULT_CHUNKSIZE : Nat := 4096

/-- The MAX macro (src/malloc.c line 11). -/
def MAX (x y : Nat) : Nat := if x > y then x else y

/-- The PACK macro (src/malloc.c line 19): a tag word holding the size
with the allocation bit or-ed into the low bits. -/
def PACK (size alloc : Nat) : Nat := size ||| alloc

/-- The READ macro (src/malloc.c line 32): read the 32-bit word at address p. -/
def READ (m : Nat → Nat) (p : Nat) : Nat := m p

/-- The WRITE macro (src/malloc.c line 33): store a value at address p.
The store truncates to 32 bits, as the C `unsigned int` store does. -/
def WRITE (m : Nat → Nat) (p v : Nat) : Nat → Nat :=
  fun q => if q = p then v % 2 ^ 32 else m q

/-- The GET_SIZE macro (src/malloc.c line 36): the tag with the three low
bits masked off; 0xFFFFFFF8 is the `unsigned int` value of `~0x7`. -/
def GET_SIZE (m : Nat → Nat) (mp : Nat) : Nat := READ m mp &&& 0xFFFFFFF8

/-- The GET_ALLOC macro (src/malloc.c line 37): the allocation bit of the tag. -/
def GET_ALLOC (m : Nat → Nat) (mp : Nat) : Nat := READ m mp &&& 0x1

/-- The NEXTP macro (src/malloc.c line 42): address of a free block's stored
next pointer (the first payload word). -/
def NEXTP (bp : Nat) : Nat := bp

/-- The PREVP macro (src/malloc.c line 43): address of a free block's stored
prev pointer (the second payload word). -/
def PREVP (bp : Nat) : Nat := bp + WSIZE

/-- The HDRP macro (src/malloc.c line 46): address of a block's header. -/
def HDRP (bp : Nat) : Nat := bp - WSIZE

/-- The FTRP macro (src/malloc.c line 47): address of a block's footer,
computed from the size currently stored in its header. -/
def FTRP (m : Nat → Nat) (bp : Nat) : Nat := bp + GET_SIZE m (HDRP bp) - DSIZE

/-- The NEXT_BLKP macro (src/malloc.c line 50). -/
def NEXT_BLKP (m : Nat → Nat) (bp : Nat) : Nat := bp + GET_SIZE m (bp - WSIZE)

/-- The PREV_BLKP macro (src/malloc.c line 51). -/
def PREV_BLKP (m : Nat → Nat) (bp : Nat) : Nat := bp - GET_SIZE m (bp - DSIZE)

/-- Allocator state: the word store, the current break, the capacity of the
growth primitive, and the static free-list root `FREE_LIST_ROOT`
(src/malloc.c line 62), with 0 playing the role of NULL. -/
structure AState where
  mem : Nat → Nat
  brk : Nat
  cap : Nat
  root : Nat

/-- Modelled from the spec: the external heap-growth primitive
(`growHeap(byteCount)`, spec section 6), which the allocator calls as
`mem_sbrk` but does not implement.  It extends the managed region by the
requested byte count and returns the address immediately following the
previous end of the region, or a failure sentinel (here `none`) if no more
space is available; the available space is bounded by `cap`. -/
def mem_sbrk (s : AState) (incr : Nat) : AState × Option Nat :=
  if s.brk + incr ≤ s.cap then ({ s with brk := s.brk + incr }, some s.brk)
  else (s, none)

/-- fb_patching (src/malloc.c lines 270-283): unlink `bp` from the free list
by patching its stored neighbours together; returns the new memory and the
new value of `FREE_LIST_ROOT`. -/
def fb_patching (m : Nat → Nat) (bp root : Nat) : (Nat → Nat) × Nat :=
  let bp_prev := READ m (PREVP bp)
  let bp_next := READ m (NEXTP bp)
  let mr : (Nat → Nat) × Nat :=
    if bp_prev ≠ 0 then (WRITE m (NEXTP bp_prev) bp_next, root)
    else (m, bp_next)
  let m := mr.1
  let root := mr.2
  let m := if bp_next ≠ 0 then WRITE m (PREVP bp_next) bp_prev else m
  (m, root)

/-- add_free (src/malloc.c lines 251-263): add `bp` at the beginning of the
free list; returns the new memory and the new value of `FREE_LIST_ROOT`. -/
def add_free (m : Nat → Nat) (bp root : Nat) : (Nat → Nat) × Nat :=
  let m := WRITE m (PREVP bp) 0
  let m :=
    if root ≠ 0 then
      let root_next := READ m (NEXTP root)
      let m := if root_next ≠ 0 then WRITE m (PREVP root_next) bp else m
      WRITE m (NEXTP bp) root_next
    else
      WRITE m (NEXTP bp) 0
  (m, bp)

/-- handle_free (src/malloc.c lines 200-246): coalesce the free block `bp`
with its address neighbours and insert the result into the free list.
Returns the new memory, the new `FREE_LIST_ROOT`, and the returned block
pointer. -/
def handle_free (m : Nat → Nat) (root bp : Nat) : (Nat → Nat) × Nat × Nat :=
  let prev_block := PREV_BLKP m bp
  let next_block := NEXT_BLKP m bp
  let prev_alloc := GET_ALLOC m (FTRP m prev_block)
  let next_alloc := GET_ALLOC m (HDRP next_block)
  let size := GET_SIZE m (HDRP bp)
  let mrb : (Nat → Nat) × Nat × Nat :=
    if prev_alloc ≠ 0 ∧ next_alloc ≠ 0 then
      (m, root, bp)
    else if prev_alloc ≠ 0 ∧ next_alloc = 0 then
      let fp := fb_patching m next_block root
      let m := fp.1
      let root := fp.2
      let size := size + GET_SIZE m (HDRP next_block)
      let m := WRITE m (HDRP bp) (PACK size 0)
      let m := WRITE m (FTRP m next_block) (PACK size 0)
      (m, root, bp)
    else if prev_alloc = 0 ∧ next_alloc ≠ 0 then
      let fp := fb_patching m prev_block root
      let m := fp.1
      let root := fp.2
      let size := size + GET_SIZE m (HDRP prev_block)
      let m := WRITE m (HDRP prev_block) (PACK size 0)
      let m := WRITE m (FTRP m bp) (PACK size 0)
      (m, root, prev_block)
    else
      let fp := fb_patching m prev_block root
      let m := fp.1
      let root := fp.2
      let fp2 := fb_patching m next_block root
      let m := fp2.1
      let root := fp2.2
      let size := size + GET_SIZE m (HDRP prev_block) + GET_SIZE m (HDRP next_block)
      let m := WRITE m (HDRP prev_block) (PACK size 0)
      let m := WRITE m (FTRP m next_block) (PACK size 0)
      (m, root, prev_block)
  let m := mrb.1
  let root := mrb.2.1
  let bp := mrb.2.2
  let af := add_free m bp root
  (af.1, af.2, bp)

/-- find_fit (src/malloc.c lines 143-156): first-fit search of the free list.
The `fuel` argument bounds the number of iterations of the C `while` loop,
which has no intrinsic termination guarantee on an arbitrary store; every
call in this development passes a fuel exceeding the length of the list. -/
def find_fit (m : Nat → Nat) (asize : Nat) : Nat → Nat → Nat
  | _, 0 => 0
  | curr_free, fuel + 1 =>
    if curr_free ≠ 0 then
      let cf_size := GET_SIZE m (HDRP curr_free)
      if cf_size < asize then
        find_fit m asize (READ m (NEXTP curr_free)) fuel
      else curr_free
    else curr_free

/-- handle_malloc (src/malloc.c lines 161-184): place an allocation of
adjusted size `asize` in the block at `bp`, splitting off the remainder as a
new free block when it is large enough.  The `size_t` subtraction computing
the remainder is modelled as `(a + 2 ^ 64 - b) % 2 ^ 64`, which agrees with
the C computation whenever `b < 2 ^ 64`. -/
def handle_malloc (m : Nat → Nat) (root bp asize : Nat) : (Nat → Nat) × Nat :=
  let cf_size := GET_SIZE m (HDRP bp)
  let rem_size := (cf_size + 2 ^ 64 - asize) % 2 ^ 64
  let fp := fb_patching m bp root
  let m := fp.1
  let root := fp.2
  if rem_size < DSIZE * 2 then
    let m := WRITE m (HDRP bp) (PACK cf_size 1)
    let m := WRITE m (FTRP m bp) (PACK cf_size 1)
    (m, root)
  else
    let m := WRITE m (HDRP bp) (PACK asize 1)
    let m := WRITE m (FTRP m bp) (PACK asize 1)
    let new_free := NEXT_BLKP m bp
    let m := WRITE m (HDRP new_free) (PACK rem_size 0)
    let m := WRITE m (FTRP m new_free) (PACK rem_size 0)
    add_free m new_free root

/-- extend_heap (src/malloc.c lines 88-104): extend the heap by the given
number of words, rounded up to an even count, format the new region as one
free block followed by a new epilogue header, and hand it to the coalescing
path. -/
def extend_heap (s : AState) (words : Nat) : AState × Option Nat :=
  let size := if words % 2 ≠ 0 then (words + 1) * WSIZE else words * WSIZE
  let sb := mem_sbrk s size
  match sb.2 with
  | none => (sb.1, none)
  | some bp =>
    let m := sb.1.mem
    let m := WRITE m (HDRP bp) (PACK size 0)
    let m := WRITE m (FTRP m bp) (PACK size 0)
    let m := WRITE m (HDRP (NEXT_BLKP m bp)) (PACK 0 1)
    let hf := handle_free m sb.1.root bp
    ({ sb.1 with mem := hf.1, root := hf.2.1 }, some hf.2.2)

/-- Size adjustment performed by mm_malloc (src/malloc.c lines 114-121):
round the request up to include the header/footer overhead and 8-byte
alignment.  The `size_t` additions are modelled modulo `2 ^ 64`. -/
def asize_of (size : Nat) : Nat :=
  if size ≤ DSIZE then 2 * DSIZE
  else (size + DSIZE + (DSIZE - 1)) % 2 ^ 64 / DSIZE * DSIZE

/-- mm_malloc (src/malloc.c lines 109-137): allocate a block of at least
`size` bytes, searching the free list first and extending the heap when no
fit is found. -/
def mm_malloc (s : AState) (size : Nat) : AState × Option Nat :=
  if size = 0 then (s, none)
  else
    let asize := asize_of size
    let bp := find_fit s.mem asize s.root (s.brk + 1)
    if bp ≠ 0 then
      let hm := handle_malloc s.mem s.root bp asize
      ({ s with mem := hm.1, root := hm.2 }, some bp)
    else
      let extend_size := MAX asize DEFAULT_CHUNKSIZE
      let eh := extend_heap s (extend_size / WSIZE)
      match eh.2 with
      | none => (eh.1, none)
      | some bp2 =>
        let hm := handle_malloc eh.1.mem eh.1.root bp2 asize
        ({ eh.1 with mem := hm.1, root := hm.2 }, some bp2)

/-- mm_init (src/malloc.c lines 70-82): create the initial empty heap with
one word of alignment padding, the prologue header and footer, and the
epilogue header.  Returns `true` on success (`0` in C) and `false` on
failure (`-1` in C). -/
def mm_init (s : AState) : AState × Bool :=
  let sb := mem_sbrk s (4 * WSIZE)
  match sb.2 with
  | none => (sb.1, false)
  | some heap_listp =>
    let m := sb.1.mem
    let m := WRITE m heap_listp 0
    let m := WRITE m (heap_listp + 1 * WSIZE) (PACK DSIZE 1)
    let m := WRITE m (heap_listp + 2 * WSIZE) (PACK DSIZE 1)
    let m := WRITE m (heap_listp + 3 * WSIZE) (PACK 0 1)
    ({ sb.1 with mem := m }, true)

/-- mm_free (src/malloc.c lines 190-196): clear the allocation bit of the
block's header and footer and run the coalescing path. -/
def mm_free (s : AState) (bp : Nat) : AState :=
  let size := GET_SIZE s.mem (HDRP bp)
  let m := WRITE s.mem (HDRP bp) (PACK size 0)
  let m := WRITE m (FTRP m bp) (PACK size 0)
  let hf := handle_free m s.root bp
  { s with mem := hf.1, root := hf.2.1 }

/-- Word-by-word payload copy, used only by the modelled `mm_realloc`. -/
def copy_words (m : Nat → Nat) (dst src : Nat) : Nat → (Nat → Nat)
  | 0 => m
  | n + 1 => copy_words (WRITE m dst (READ m src)) (dst + WSIZE) (src + WSIZE) n

/-- Modelled from the spec: mm_realloc.  The source body
(src/malloc.c lines 288-290) is an empty `TBD` stub, so the Reallocator is
modelled from spec section 4.6: a null pointer behaves exactly as
`allocate(size)`; a zero size behaves exactly as `free(ptr)` and returns
null; otherwise shrink in place (splitting and coalescing the remainder when
it meets the minimum block size), grow in place by absorbing a free next
neighbour when it suffices, and fall back to allocate-copy-free.  The spec's
byte copy of `min(oldSize, size)` bytes is rendered at the word granularity
of the memory model. -/
def mm_realloc (s : AState) (ptr size : Nat) : AState × Option Nat :=
  if ptr = 0 then mm_malloc s size
  else if size = 0 then (mm_free s ptr, none)
  else
    let asize := asize_of size
    let oldSize := GET_SIZE s.mem (HDRP ptr)
    if asize ≤ oldSize then
      if 2 * DSIZE ≤ oldSize - asize then
        let m := WRITE s.mem (HDRP ptr) (PACK asize 1)
        let m := WRITE m (FTRP m ptr) (PACK asize 1)
        let newbp := ptr + asize
        let m := WRITE m (HDRP newbp) (PACK (oldSize - asize) 0)
        let m := WRITE m (FTRP m newbp) (PACK (oldSize - asize) 0)
        let hf := handle_free m s.root newbp
        ({ s with mem := hf.1, root := hf.2.1 }, some ptr)
      else (s, some ptr)
    else
      let nextb := NEXT_BLKP s.mem ptr
      if GET_ALLOC s.mem (HDRP nextb) = 0 ∧
          asize ≤ oldSize + GET_SIZE s.mem (HDRP nextb) then
        let total := oldSize + GET_SIZE s.mem (HDRP nextb)
        let fp := fb_patching s.mem nextb s.root
        let m := fp.1
        let root := fp.2
        if 2 * DSIZE ≤ total - asize then
          let m := WRITE m (HDRP ptr) (PACK asize 1)
          let m := WRITE m (FTRP m ptr) (PACK asize 1)
          let newbp := ptr + asize
          let m := WRITE m (HDRP newbp) (PACK (total - asize) 0)
          let m := WRITE m (FTRP m newbp) (PACK (total - asize) 0)
          let af := add_free m newbp root
          ({ s with mem := af.1, root := af.2 }, some ptr)
        else
          let m := WRITE m (HDRP ptr) (PACK total 1)
          let m := WRITE m (FTRP m ptr) (PACK total 1)
          ({ s with mem := m, root := root }, some ptr)
      else
        let ms := mm_malloc s size
        match ms.2 with
        | none => (ms.1, none)
        | some newp =>
          let n := min oldSize size
          let m := copy_words ms.1.mem newp ptr ((n + WSIZE - 1) / WSIZE)
          let s2 := { ms.1 with mem := m }
          (mm_free s2 ptr, some newp)

/-- Address-order walk of the heap starting at the payload pointer of the
first block after the prologue, collecting each block's payload address,
size, and allocation bit, and stopping at the epilogue header (size 0).
This is the independent heap scan that spec sections 3 and 8 describe. -/
def heap_walk (m : Nat → Nat) : Nat → Nat → List (Nat × Nat × Nat)
  | _, 0 => []
  | bp, fuel + 1 =>
    let sz := GET_SIZE m (HDRP bp)
    if sz = 0 then []
    else (bp, sz, GET_ALLOC m (HDRP bp)) :: heap_walk m (bp + sz) fuel

/-- Payload addresses of the free blocks found by an address-order heap walk. -/
def walk_free_blocks (m : Nat → Nat) (bp fuel : Nat) : List Nat :=
  ((heap_walk m bp fuel).filter (fun t => t.2.2 == 0)).map (fun t => t.1)

/-- Whether an address-order walk contains two consecutive free blocks. -/
def has_adjacent_free : List (Nat × Nat × Nat) → Bool
  | (_, _, a1) :: (b2, s2, a2) :: rest =>
    (a1 == 0 && a2 == 0) || has_adjacent_free ((b2, s2, a2) :: rest)
  | _ => false

/-- Blocks reachable from FREE_LIST_ROOT by following stored next pointers. -/
def free_list_members (m : Nat → Nat) : Nat → Nat → List Nat
  | _, 0 => []
  | curr, fuel + 1 =>
    if curr = 0 then []
    else curr :: free_list_members m (READ m (NEXTP curr)) fuel

/-- Initial machine state: an all-zero store, break at 0, and a growth
capacity of 100000 bytes. -/
def state0 : AState := { mem := fun _ => 0, brk := 0, cap := 100000, root := 0 }

/-- State after a successful mm_init from `state0`. -/
def stateI : AState := (mm_init state0).1

/-- First allocation of 8 bytes: returns payload pointer 16. -/
def alloc1 : AState × Option Nat := mm_malloc stateI 8

/-- Second allocation of 8 bytes: returns payload pointer 32. -/
def alloc2 : AState × Option Nat := mm_malloc alloc1.1 8

/-- Third allocation of 8 bytes: returns payload pointer 48. -/
def alloc3 : AState × Option Nat := mm_malloc alloc2.1 8

/-- After the three allocations, free the first block (payload 16) and then
the third block (payload 48); the two freed regions are separated by the
still-allocated second block. -/
def stateC2 : AState := mm_free (mm_free alloc3.1 16) 48

/-- Alternative continuation: free the middle block (payload 32). -/
def stateF2 : AState := mm_free alloc3.1 32

/-- Allocation whose size makes the size-adjustment arithmetic wrap:
`2 ^ 64 - 8` is `SIZE_MAX - 7`, for which the C computation
`(size + DSIZE + (DSIZE-1)) / DSIZE * DSIZE` yields 0. -/
def allocOv : AState × Option Nat := mm_malloc stateF2 (2 ^ 64 - 8)

/-- Freeing the pointer returned by the overflowing allocation. -/
def stateC3 : AState := mm_free allocOv.1 32

/-! Helper lemmas about the tag arithmetic and the word store. -/

/-- Bits of the GET_SIZE mask: 0xFFFFFFF8 has exactly bits 3 through 31 set. -/
theorem mask_testBit (i : Nat) :
    Nat.testBit 0xFFFFFFF8 i = (decide (3 ≤ i) && decide (i < 32)) := by
  have h : (0xFFFFFFF8 : Nat) = 2 ^ 3 * (2 ^ 29 - 1) := by norm_num
  rw [h, Nat.testBit_mul_pow_two, Nat.testBit_two_pow_sub_one]
  by_cases h3 : 3 ≤ i
  · simp only [ge_iff_le, h3, decide_True, Bool.true_and]
    simp only [decide_eq_decide]
    omega
  · simp [h3, ge_iff_le]

/-- Reading a bit of `v / 8` reads the bit three places up in `v`. -/
theorem testBit_div_eight (v j : Nat) :
    Nat.testBit (v / 8) j = Nat.testBit v (3 + j) := by
  have h : v / 8 = v >>> 3 := by
    rw [Nat.shiftRight_eq_div_pow]
  rw [h, Nat.testBit_shiftRight]

/-- Masking a 32-bit value with ~0x7 clears its three low bits. -/
theorem and_mask_eq_sub_mod (v : Nat) (hv : v < 2 ^ 32) :
    v &&& 0xFFFFFFF8 = v - v % 8 := by
  apply Nat.eq_of_testBit_eq
  intro i
  have hw : v - v % 8 = 2 ^ 3 * (v / 8) := by omega
  rw [Nat.testBit_and, mask_testBit, hw, Nat.testBit_mul_pow_two]
  by_cases h3 : 3 ≤ i
  · have h33 : 3 + (i - 3) = i := by omega
    by_cases h32 : i < 32
    · simp [h3, h32, ge_iff_le, testBit_div_eight, h33]
    · have hz : Nat.testBit v i = false :=
        Nat.testBit_lt_two_pow
          (lt_of_lt_of_le hv (Nat.pow_le_pow_right (by norm_num) (by omega)))
      simp [h3, h32, ge_iff_le, testBit_div_eight, h33, hz]
  · simp [h3, ge_iff_le]

/-- A tag packs an 8-aligned size and a small flag by addition. -/
theorem pack_eq_add (s a : Nat) (hs : s % 8 = 0) (ha : a < 8) :
    PACK s a = s + a := by
  have h : s = 2 ^ 3 * (s / 8) := by omega
  rw [PACK, h]
  exact (Nat.mul_add_lt_is_or (by norm_num [ha] : a < 2 ^ 3) (s / 8)).symm

/-- GET_SIZE recovers the size field from a packed tag value. -/
theorem pack_and_mask (s a : Nat) (hs : s % 8 = 0) (hslt : s < 2 ^ 32)
    (ha : a < 8) : PACK s a &&& 0xFFFFFFF8 = s := by
  rw [pack_eq_add s a hs ha, and_mask_eq_sub_mod (s + a) (by omega)]
  omega

/-- GET_ALLOC recovers the allocation bit from a packed tag value. -/
theorem pack_and_one (s a : Nat) (hs : s % 8 = 0) (ha : a ≤ 1) :
    PACK s a &&& 0x1 = a := by
  rw [pack_eq_add s a hs (by omega), Nat.and_one_is_mod]
  omega

/-- A packed tag of a 32-bit-representable size fits in 32 bits. -/
theorem pack_lt (s a : Nat) (hs : s % 8 = 0) (hslt : s < 2 ^ 32) (ha : a < 8) :
    PACK s a < 2 ^ 32 := by
  rw [pack_eq_add s a hs ha]
  omega

/-- Reading back the freshly written word (the store truncates to 32 bits). -/
theorem READ_WRITE_self (m : Nat → Nat) (p v : Nat) :
    READ (WRITE m p v) p = v % 2 ^ 32 := by
  simp [READ, WRITE]

/-- Reading any other address is unaffected by a store. -/
theorem READ_WRITE_ne (m : Nat → Nat) (p v q : Nat) (h : q ≠ p) :
    READ (WRITE m p v) q = READ m q := by
  simp [READ, WRITE, h]

/-- GET_SIZE after storing a well-formed tag. -/
theorem GET_SIZE_WRITE_pack (m : Nat → Nat) (p s a : Nat) (hs : s % 8 = 0)
    (hslt : s < 2 ^ 32) (ha : a < 8) :
    GET_SIZE (WRITE m p (PACK s a)) p = s := by
  rw [GET_SIZE, READ_WRITE_self, Nat.mod_eq_of_lt (pack_lt s a hs hslt ha),
    pack_and_mask s a hs hslt ha]

/-- GET_ALLOC after storing a well-formed tag. -/
theorem GET_ALLOC_WRITE_pack (m : Nat → Nat) (p s a : Nat) (hs : s % 8 = 0)
    (hslt : s < 2 ^ 32) (ha : a ≤ 1) :
    GET_ALLOC (WRITE m p (PACK s a)) p = a := by
  rw [GET_ALLOC, READ_WRITE_self, Nat.mod_eq_of_lt (pack_lt s a hs hslt (by omega)),
    pack_and_one s a hs ha]

/-- GET_SIZE of a cell known to hold a well-formed tag. -/
theorem GET_SIZE_of_read (m : Nat → Nat) (p s a : Nat) (h : READ m p = PACK s a)
    (hs : s % 8 = 0) (hslt : s < 2 ^ 32) (ha : a < 8) :
    GET_SIZE m p = s := by
  rw [GET_SIZE, h, pack_and_mask s a hs hslt ha]

/-- GET_ALLOC of a cell known to hold a well-formed tag. -/
theorem GET_ALLOC_of_read (m : Nat → Nat) (p s a : Nat) (h : READ m p = PACK s a)
    (hs : s % 8 = 0) (ha : a ≤ 1) :
    GET_ALLOC m p = a := by
  rw [GET_ALLOC, h, pack_and_one s a hs ha]

/-- fb_patching of a block whose stored links are both null does not write to
memory and clears the root. -/
theorem fb_patching_null (m : Nat → Nat) (bp root : Nat)
    (hp : READ m (PREVP bp) = 0) (hn : READ m (NEXTP bp) = 0) :
    fb_patching m bp root = (m, 0) := by
  simp [fb_patching, hp, hn]

/-- add_free on an empty free list writes null into both link words of `bp`
and makes it the root. -/
theorem add_free_root_zero (m : Nat → Nat) (bp : Nat) :
    add_free m bp 0 = (WRITE (WRITE m (PREVP bp) 0) (NEXTP bp) 0, bp) := by
  simp [add_free]

/-- add_free on a list whose head has a null stored next pointer also writes
null into both link words of `bp` and makes it the root (dropping the old
head). -/
theorem add_free_root_ne (m : Nat → Nat) (bp root : Nat) (h : root ≠ 0)
    (hn : READ (WRITE m (PREVP bp) 0) (NEXTP root) = 0) :
    add_free m bp root = (WRITE (WRITE m (PREVP bp) 0) (NEXTP bp) 0, bp) := by
  simp [add_free, h, hn]

/-- C1: the claim is right and the code is wrong.  `add_free` is specified
(and its own comment at src/malloc.c line 253 says) to make the inserted
block's next-link point at the old head and the old head's prev-link point
at the inserted block.  Evaluating the code on a free list whose head is
the free block at 100 (with null stored links), inserting the block at 200:
the root does become 200 and 200's prev-link becomes null, but 200's
next-link becomes null (the old head's next) rather than 100, and 100's
prev-link stays null rather than becoming 200, so the old head is dropped
from the list. -/
theorem add_free_drops_old_head :
    (add_free (fun _ => 0) 200 100).2 = 200 ∧
    READ (add_free (fun _ => 0) 200 100).1 (PREVP 200) = 0 ∧
    READ (add_free (fun _ => 0) 200 100).1 (NEXTP 200) = 0 ∧
    READ (add_free (fun _ => 0) 200 100).1 (NEXTP 200) ≠ 100 ∧
    READ (add_free (fun _ => 0) 200 100).1 (PREVP 100) ≠ 200 := by
  decide

/-- C2: the claim is right and the code is wrong.  After the completed
operation sequence init; allocate(8) = 16; allocate(8) = 32;
allocate(8) = 48; free(16); free(48), the address-order heap walk finds the
free blocks 16 and 48, but only 48 is reachable from the free-list root:
the bug in `add_free` dropped the block at 64 when 16 was inserted and
`fb_patching` then dropped 16 when 48 absorbed 64, so the free list does
not contain exactly the blocks whose allocation bit is 0. -/
theorem free_list_misses_lost_block :
    walk_free_blocks stateC2.mem 16 100 = [16, 48] ∧
    free_list_members stateC2.mem stateC2.root 100 = [48] ∧
    walk_free_blocks stateC2.mem 16 100 ≠
      free_list_members stateC2.mem stateC2.root 100 := by
  decide

/-- C3: the claim is right and the code is wrong.  For the request
`2 ^ 64 - 8` (SIZE_MAX - 7 in C) the size adjustment of mm_malloc wraps
around to 0, the allocation path then corrupts the boundary tags, and after
the completed sequence init; allocate(8) three times; free(32);
allocate(2 ^ 64 - 8); free(32) the address-order walk finds the two
consecutive free blocks at 32 and 64. -/
theorem adjacent_free_blocks_after_overflow :
    heap_walk stateC3.mem 16 100 = [(16, 16, 1), (32, 32, 0), (64, 4048, 0)] ∧
    has_adjacent_free (heap_walk stateC3.mem 16 100) = true := by
  decide

/-- C4: the claim is right and the code is wrong.  For the nonzero request
`2 ^ 64 - 8` the size adjustment of mm_malloc wraps around to 0, and in the
state `stateF2` (which holds a 16-byte free block at 32) the allocation
succeeds and returns pointer 32, whose block is 16 bytes, so its payload of
8 usable bytes is far smaller than the requested size. -/
theorem malloc_overflow_undersized :
    0 < 2 ^ 64 - 8 ∧
    asize_of (2 ^ 64 - 8) = 0 ∧
    allocOv.2 = some 32 ∧
    GET_SIZE allocOv.1.mem (HDRP 32) - DSIZE = 8 ∧
    ¬(2 ^ 64 - 8 ≤ GET_SIZE allocOv.1.mem (HDRP 32) - DSIZE) := by
  decide

/-- C8, counterexample: mm_init writes `PACK DSIZE 1 = pack(8, allocated)`
into the prologue header (and footer), not `pack(16, allocated)` as the
claim states. -/
theorem mm_init_prologue_not_sixteen :
    (mm_init state0).2 = true ∧
    READ (mm_init state0).1.mem 4 = PACK 8 1 ∧
    READ (mm_init state0).1.mem 4 ≠ PACK 16 1 := by
  decide

/-- C9: resize with a null pointer behaves exactly as allocate: it returns
the same result and leaves the state exactly as a call to mm_malloc would
(mm_realloc is modelled from spec section 4.6, the source body being a TBD
stub). -/
theorem realloc_null_is_malloc (s : AState) (size : Nat) :
    mm_realloc s 0 size = mm_malloc s size := rfl

/-- C10: for every size that is a multiple of 8 and representable in the
32-bit tag word and every allocation bit in {0, 1}, decoding the stored
packed tag recovers both fields. -/
theorem pack_roundtrip (m : Nat → Nat) (p size a : Nat) (h8 : size % 8 = 0)
    (hlt : size < 2 ^ 32) (ha : a ≤ 1) :
    GET_SIZE (WRITE m p (PACK size a)) p = size ∧
    GET_ALLOC (WRITE m p (PACK size a)) p = a :=
  ⟨GET_SIZE_WRITE_pack m p size a h8 hlt (by omega),
   GET_ALLOC_WRITE_pack m p size a h8 hlt ha⟩

/-- Witness for C10 at size 24, allocation bit 1, address 12. -/
theorem pack_roundtrip_witness :
    (24 % 8 = 0 ∧ 24 < 2 ^ 32 ∧ 1 ≤ 1) ∧
    (GET_SIZE (WRITE (fun _ => 0) 12 (PACK 24 1)) 12 = 24 ∧
     GET_ALLOC (WRITE (fun _ => 0) 12 (PACK 24 1)) 12 = 1) :=
  ⟨by decide, pack_roundtrip (fun _ => 0) 12 24 1 (by decide) (by decide) (by decide)⟩

/-- Adjusted sizes are always multiples of 8. -/
theorem asize_of_mod8 (size : Nat) : asize_of size % 8 = 0 := by
  rw [asize_of]
  split
  · norm_num [DSIZE]
  · simp [DSIZE, Nat.mul_mod_left]

/-- C8, amended: when the growth primitive supplies the initial 4-word
region, mm_init writes one word of alignment padding, a prologue header and
a prologue footer both equal to pack(8, allocated), and an epilogue header
equal to pack(0, allocated), and returns success. -/
theorem mm_init_formats_heap (s : AState) (h : s.brk + 16 ≤ s.cap) :
    (mm_init s).2 = true ∧
    READ (mm_init s).1.mem s.brk = 0 ∧
    READ (mm_init s).1.mem (s.brk + 4) = PACK 8 1 ∧
    READ (mm_init s).1.mem (s.brk + 8) = PACK 8 1 ∧
    READ (mm_init s).1.mem (s.brk + 12) = PACK 0 1 := by
  have hsb : mem_sbrk s 16 = ({ s with brk := s.brk + 16 }, some s.brk) := by
    rw [mem_sbrk, if_pos (by omega)]
  have hm : (mm_init s).1.mem =
      WRITE (WRITE (WRITE (WRITE s.mem s.brk 0) (s.brk + 4) (PACK 8 1))
        (s.brk + 8) (PACK 8 1)) (s.brk + 12) (PACK 0 1) := by
    simp [mm_init, hsb, WSIZE, DSIZE]
  have hb : (mm_init s).2 = true := by
    simp [mm_init, WSIZE, hsb]
  refine ⟨hb, ?_, ?_, ?_, ?_⟩
  · rw [hm, READ_WRITE_ne _ _ _ _ (by omega), READ_WRITE_ne _ _ _ _ (by omega),
      READ_WRITE_ne _ _ _ _ (by omega), READ_WRITE_self]
    decide
  · rw [hm, READ_WRITE_ne _ _ _ _ (by omega), READ_WRITE_ne _ _ _ _ (by omega),
      READ_WRITE_self]
    decide
  · rw [hm, READ_WRITE_ne _ _ _ _ (by omega), READ_WRITE_self]
    decide
  · rw [hm, READ_WRITE_self]
    decide

/-- Witness for C8's amended theorem at the concrete initial state. -/
theorem mm_init_formats_heap_witness :
    (state0.brk + 16 ≤ state0.cap) ∧
    ((mm_init state0).2 = true ∧
     READ (mm_init state0).1.mem state0.brk = 0 ∧
     READ (mm_init state0).1.mem (state0.brk + 4) = PACK 8 1 ∧
     READ (mm_init state0).1.mem (state0.brk + 8) = PACK 8 1 ∧
     READ (mm_init state0).1.mem (state0.brk + 12) = PACK 0 1) :=
  ⟨by decide, mm_init_formats_heap state0 (by decide)⟩

/-- C7: when no free block fits, mm_malloc asks the growth primitive for
exactly `max(asize, DEFAULT_CHUNKSIZE)` bytes: if that exceeds the
remaining capacity the primitive fails and mm_malloc returns failure with
the state (memory, break, and free-list root) exactly as it was before the
call, and otherwise the break advances by exactly that many bytes. -/
theorem mm_malloc_growth (s : AState) (size : Nat) (h0 : size ≠ 0)
    (hnofit : find_fit s.mem (asize_of size) s.root (s.brk + 1) = 0) :
    (s.cap < s.brk + MAX (asize_of size) DEFAULT_CHUNKSIZE →
      mm_malloc s size = (s, none)) ∧
    (s.brk + MAX (asize_of size) DEFAULT_CHUNKSIZE ≤ s.cap →
      (mm_malloc s size).1.brk =
        s.brk + MAX (asize_of size) DEFAULT_CHUNKSIZE) := by
  have hE8 : MAX (asize_of size) DEFAULT_CHUNKSIZE % 8 = 0 := by
    have := asize_of_mod8 size
    rw [MAX]
    split
    · exact this
    · norm_num [DEFAULT_CHUNKSIZE]
  have hsize : (if (MAX (asize_of size) DEFAULT_CHUNKSIZE / WSIZE) % 2 ≠ 0 then
      (MAX (asize_of size) DEFAULT_CHUNKSIZE / WSIZE + 1) * WSIZE
    else (MAX (asize_of size) DEFAULT_CHUNKSIZE / WSIZE) * WSIZE) =
      MAX (asize_of size) DEFAULT_CHUNKSIZE := by
    rw [if_neg (by simp only [WSIZE]; omega)]
    simp only [WSIZE]
    omega
  constructor
  · intro hfail
    have hsb : mem_sbrk s (MAX (asize_of size) DEFAULT_CHUNKSIZE) = (s, none) := by
      rw [mem_sbrk, if_neg (by omega)]
    simp only [mm_malloc, if_neg h0, hnofit, ne_eq, not_true_eq_false, if_false,
      extend_heap, hsize, hsb]
  · intro hok
    have hsb : mem_sbrk s (MAX (asize_of size) DEFAULT_CHUNKSIZE) =
        ({ s with brk := s.brk + MAX (asize_of size) DEFAULT_CHUNKSIZE },
          some s.brk) := by
      rw [mem_sbrk, if_pos hok]
    simp only [mm_malloc, if_neg h0, hnofit, ne_eq, not_true_eq_false, if_false,
      extend_heap, hsize, hsb]

/-- Witness for C7 at the freshly initialized state with request 8. -/
theorem mm_malloc_growth_witness :
    (stateI.cap < stateI.brk + MAX (asize_of 8) DEFAULT_CHUNKSIZE →
      mm_malloc stateI 8 = (stateI, none)) ∧
    (stateI.brk + MAX (asize_of 8) DEFAULT_CHUNKSIZE ≤ stateI.cap →
      (mm_malloc stateI 8).1.brk =
        stateI.brk + MAX (asize_of 8) DEFAULT_CHUNKSIZE) :=
  mm_malloc_growth stateI 8 (by decide) (by decide)

/-- C5: placement threshold of handle_malloc.  For a candidate free block of
size `cf` with null stored links chosen for an allocation of adjusted size
`asize`, if the remainder `cf - asize` is below the 16-byte minimum block
size the whole candidate is tagged allocated with its full size; otherwise
the first `asize` bytes are tagged allocated, the remainder is formatted as
a free block at `bp + asize`, and that block becomes the head of the free
list. -/
theorem handle_malloc_split_threshold (m : Nat → Nat) (root bp cf asize : Nat)
    (hhdr : READ m (HDRP bp) = PACK cf 0)
    (hcf8 : cf % 8 = 0) (hcflt : cf < 2 ^ 32)
    (ha8 : asize % 8 = 0) (ha16 : 16 ≤ asize) (hacf : asize ≤ cf)
    (hnext : READ m (NEXTP bp) = 0) (hprev : READ m (PREVP bp) = 0)
    (hbp : 8 ≤ bp) :
    (cf - asize < 16 →
      READ (handle_malloc m root bp asize).1 (HDRP bp) = PACK cf 1 ∧
      READ (handle_malloc m root bp asize).1 (bp + cf - 8) = PACK cf 1) ∧
    (16 ≤ cf - asize →
      READ (handle_malloc m root bp asize).1 (HDRP bp) = PACK asize 1 ∧
      READ (handle_malloc m root bp asize).1 (bp + asize - 8) = PACK asize 1 ∧
      READ (handle_malloc m root bp asize).1 (HDRP (bp + asize)) =
        PACK (cf - asize) 0 ∧
      READ (handle_malloc m root bp asize).1 (bp + cf - 8) =
        PACK (cf - asize) 0 ∧
      (handle_malloc m root bp asize).2 = bp + asize) := by
  have ha32 : asize < 2 ^ 32 := by omega
  have hr8 : (cf - asize) % 8 = 0 := by omega
  have hr32 : cf - asize < 2 ^ 32 := by omega
  have hcfs : GET_SIZE m (HDRP bp) = cf :=
    GET_SIZE_of_read m (HDRP bp) cf 0 hhdr hcf8 hcflt (by norm_num)
  have hrem : (cf + 2 ^ 64 - asize) % 2 ^ 64 = cf - asize := by omega
  have hfb : fb_patching m bp root = (m, 0) := fb_patching_null m bp root hprev hnext
  constructor
  · intro hlt
    have hres : handle_malloc m root bp asize =
        (WRITE (WRITE m (HDRP bp) (PACK cf 1)) (bp + cf - 8) (PACK cf 1), 0) := by
      simp only [handle_malloc, hcfs, hrem, hfb]
      rw [if_pos (show cf - asize < DSIZE * 2 by simp only [DSIZE]; omega)]
      rw [show FTRP (WRITE m (HDRP bp) (PACK cf 1)) bp = bp + cf - 8 by
        rw [FTRP, GET_SIZE_WRITE_pack m (HDRP bp) cf 1 hcf8 hcflt (by norm_num)]
        simp only [DSIZE]]
    rw [hres]
    refine ⟨?_, ?_⟩
    · rw [READ_WRITE_ne _ _ _ _ (by simp only [HDRP, WSIZE]; omega), READ_WRITE_self,
        Nat.mod_eq_of_lt (pack_lt cf 1 hcf8 hcflt (by norm_num))]
    · rw [READ_WRITE_self, Nat.mod_eq_of_lt (pack_lt cf 1 hcf8 hcflt (by norm_num))]
  · intro hge
    have e1 : FTRP (WRITE m (HDRP bp) (PACK asize 1)) bp = bp + asize - 8 := by
      rw [FTRP, GET_SIZE_WRITE_pack m (HDRP bp) asize 1 ha8 ha32 (by norm_num)]
      simp only [DSIZE]
    have e2 : NEXT_BLKP (WRITE (WRITE m (HDRP bp) (PACK asize 1))
        (bp + asize - 8) (PACK asize 1)) bp = bp + asize := by
      rw [NEXT_BLKP, show (bp - WSIZE) = HDRP bp by rw [HDRP]]
      rw [GET_SIZE, READ_WRITE_ne _ _ _ _ (by simp only [HDRP, WSIZE]; omega)]
      rw [show READ (WRITE m (HDRP bp) (PACK asize 1)) (HDRP bp) &&& 0xFFFFFFF8 =
          GET_SIZE (WRITE m (HDRP bp) (PACK asize 1)) (HDRP bp) from rfl]
      rw [GET_SIZE_WRITE_pack m (HDRP bp) asize 1 ha8 ha32 (by norm_num)]
    have e3 : FTRP (WRITE (WRITE (WRITE m (HDRP bp) (PACK asize 1))
        (bp + asize - 8) (PACK asize 1)) (HDRP (bp + asize)) (PACK (cf - asize) 0))
        (bp + asize) = bp + cf - 8 := by
      rw [FTRP, GET_SIZE_WRITE_pack _ (HDRP (bp + asize)) (cf - asize) 0 hr8 hr32
        (by norm_num)]
      simp only [DSIZE]
      omega
    have hres : handle_malloc m root bp asize =
        (WRITE (WRITE
          (WRITE (WRITE (WRITE (WRITE m (HDRP bp) (PACK asize 1))
            (bp + asize - 8) (PACK asize 1))
            (HDRP (bp + asize)) (PACK (cf - asize) 0))
            (bp + cf - 8) (PACK (cf - asize) 0))
          (PREVP (bp + asize)) 0) (NEXTP (bp + asize)) 0, bp + asize) := by
      simp only [handle_malloc, hcfs, hrem, hfb]
      rw [if_neg (show ¬(cf - asize < DSIZE * 2) by simp only [DSIZE]; omega)]
      rw [e1, e2, e3, add_free_root_zero]
    rw [hres]
    refine ⟨?_, ?_, ?_, ?_, rfl⟩
    · rw [READ_WRITE_ne _ _ _ _ (by simp only [HDRP, NEXTP, WSIZE]; omega),
        READ_WRITE_ne _ _ _ _ (by simp only [HDRP, PREVP, WSIZE]; omega),
        READ_WRITE_ne _ _ _ _ (by simp only [HDRP, WSIZE]; omega),
        READ_WRITE_ne _ _ _ _ (by simp only [HDRP, WSIZE]; omega),
        READ_WRITE_ne _ _ _ _ (by simp only [HDRP, WSIZE]; omega),
        READ_WRITE_self, Nat.mod_eq_of_lt (pack_lt asize 1 ha8 ha32 (by norm_num))]
    · rw [READ_WRITE_ne _ _ _ _ (by simp only [NEXTP]; omega),
        READ_WRITE_ne _ _ _ _ (by simp only [PREVP, WSIZE]; omega),
        READ_WRITE_ne _ _ _ _ (by omega),
        READ_WRITE_ne _ _ _ _ (by simp only [HDRP, WSIZE]; omega),
        READ_WRITE_self, Nat.mod_eq_of_lt (pack_lt asize 1 ha8 ha32 (by norm_num))]
    · rw [READ_WRITE_ne _ _ _ _ (by simp only [HDRP, NEXTP, WSIZE]; omega),
        READ_WRITE_ne _ _ _ _ (by simp only [HDRP, PREVP, WSIZE]; omega),
        READ_WRITE_ne _ _ _ _ (by simp only [HDRP, WSIZE]; omega),
        READ_WRITE_self,
        Nat.mod_eq_of_lt (pack_lt (cf - asize) 0 hr8 hr32 (by norm_num))]
    · rw [READ_WRITE_ne _ _ _ _ (by simp only [NEXTP]; omega),
        READ_WRITE_ne _ _ _ _ (by simp only [PREVP, WSIZE]; omega),
        READ_WRITE_self,
        Nat.mod_eq_of_lt (pack_lt (cf - asize) 0 hr8 hr32 (by norm_num))]

/-- Concrete store for the witness of C5: one free block of size 48 at
payload address 16, with null stored links. -/
def memW5 : Nat → Nat := fun q => if q = 12 then PACK 48 0 else 0

/-- Witness for C5 at the 48-byte candidate with request size 16 (the split
branch applies, since the remainder 32 meets the minimum block size). -/
theorem handle_malloc_split_threshold_witness :
    (48 - 16 < 16 →
      READ (handle_malloc memW5 0 16 16).1 (HDRP 16) = PACK 48 1 ∧
      READ (handle_malloc memW5 0 16 16).1 (16 + 48 - 8) = PACK 48 1) ∧
    (16 ≤ 48 - 16 →
      READ (handle_malloc memW5 0 16 16).1 (HDRP 16) = PACK 16 1 ∧
      READ (handle_malloc memW5 0 16 16).1 (16 + 16 - 8) = PACK 16 1 ∧
      READ (handle_malloc memW5 0 16 16).1 (HDRP (16 + 16)) = PACK (48 - 16) 0 ∧
      READ (handle_malloc memW5 0 16 16).1 (16 + 48 - 8) = PACK (48 - 16) 0 ∧
      (handle_malloc memW5 0 16 16).2 = 16 + 16) :=
  handle_malloc_split_threshold memW5 0 16 48 16 (by decide) (by decide)
    (by decide) (by decide) (by decide) (by decide) (by decide) (by decide)
    (by decide)

/-- Freeing a block whose address neighbours are both allocated (case 1 of
handle_free) rewrites its tags as free, writes null links, and makes it the
free-list head, with no other store changed.  `q` is the payload address of
the previous block, whose size is `pa`. -/
theorem mm_free_both_alloc (s : AState) (bp a pa q : Nat)
    (hhdr : READ s.mem (HDRP bp) = PACK a 1)
    (ha8 : a % 8 = 0) (ha16 : 16 ≤ a) (ha32 : a < 2 ^ 32)
    (hpf : READ s.mem (bp - 8) = PACK pa 1)
    (hph : READ s.mem (HDRP q) = PACK pa 1)
    (hpa8 : pa % 8 = 0) (hpa : 8 ≤ pa) (hpa32 : pa < 2 ^ 32)
    (hbp : pa + 8 ≤ bp) (hq : q + pa = bp)
    (hnh : GET_ALLOC s.mem (HDRP (bp + a)) = 1)
    (hr0 : s.root = 0) :
    mm_free s bp = { s with
      mem := WRITE (WRITE (WRITE (WRITE s.mem (HDRP bp) (PACK a 0))
        (bp + a - 8) (PACK a 0)) (PREVP bp) 0) (NEXTP bp) 0,
      root := bp } := by
  have hsz : GET_SIZE s.mem (HDRP bp) = a :=
    GET_SIZE_of_read s.mem (HDRP bp) a 1 hhdr ha8 ha32 (by norm_num)
  have hftr : FTRP (WRITE s.mem (HDRP bp) (PACK a 0)) bp = bp + a - 8 := by
    rw [FTRP, GET_SIZE_WRITE_pack s.mem (HDRP bp) a 0 ha8 ha32 (by norm_num)]
    simp only [DSIZE]
  set m2 := WRITE (WRITE s.mem (HDRP bp) (PACK a 0)) (bp + a - 8) (PACK a 0) with hm2
  have hr1 : READ m2 (bp - 8) = PACK pa 1 := by
    rw [hm2, READ_WRITE_ne _ _ _ _ (by omega),
      READ_WRITE_ne _ _ _ _ (by simp only [HDRP, WSIZE]; omega), hpf]
  have hr2 : READ m2 (HDRP q) = PACK pa 1 := by
    rw [hm2, READ_WRITE_ne _ _ _ _ (by simp only [HDRP, WSIZE]; omega),
      READ_WRITE_ne _ _ _ _ (by simp only [HDRP, WSIZE]; omega), hph]
  have hprevb : PREV_BLKP m2 bp = q := by
    rw [PREV_BLKP, show bp - DSIZE = bp - 8 by simp only [DSIZE],
      GET_SIZE_of_read m2 (bp - 8) pa 1 hr1 hpa8 hpa32 (by norm_num)]
    omega
  have hhd2 : READ m2 (HDRP bp) = PACK a 0 := by
    rw [hm2, READ_WRITE_ne _ _ _ _ (by simp only [HDRP, WSIZE]; omega),
      READ_WRITE_self, Nat.mod_eq_of_lt (pack_lt a 0 ha8 ha32 (by norm_num))]
  have hsz2 : GET_SIZE m2 (HDRP bp) = a :=
    GET_SIZE_of_read m2 (HDRP bp) a 0 hhd2 ha8 ha32 (by norm_num)
  have hnextb : NEXT_BLKP m2 bp = bp + a := by
    rw [NEXT_BLKP, show bp - WSIZE = HDRP bp by rw [HDRP], hsz2]
  have hftrp : FTRP m2 q = bp - 8 := by
    rw [FTRP, GET_SIZE_of_read m2 (HDRP q) pa 1 hr2 hpa8 hpa32 (by norm_num)]
    simp only [DSIZE]
    omega
  have hpalloc : GET_ALLOC m2 (bp - 8) = 1 :=
    GET_ALLOC_of_read m2 (bp - 8) pa 1 hr1 hpa8 (by norm_num)
  have hnalloc : GET_ALLOC m2 (HDRP (bp + a)) = 1 := by
    rw [GET_ALLOC, hm2, READ_WRITE_ne _ _ _ _ (by simp only [HDRP, WSIZE]; omega),
      READ_WRITE_ne _ _ _ _ (by simp only [HDRP, WSIZE]; omega)]
    exact hnh
  have hhf : handle_free m2 s.root bp =
      (WRITE (WRITE m2 (PREVP bp) 0) (NEXTP bp) 0, bp, bp) := by
    rw [handle_free]
    simp only [hprevb, hnextb, hftrp, hpalloc, hnalloc, hsz2]
    rw [if_pos ⟨one_ne_zero, one_ne_zero⟩, hr0, add_free_root_zero]
  rw [mm_free]
  simp only [hsz, hftr, hhf]

/-- Freeing a block whose previous neighbour is allocated and whose next
neighbour is a free block with null stored links (case 2 of handle_free)
merges forward: the freed block's header and the next block's footer
receive the summed size, and the freed block becomes the free-list head.
`q` is the payload address of the previous (allocated) block of size `pa`. -/
theorem mm_free_next_free (s : AState) (bp a b pa q : Nat)
    (hhdr : READ s.mem (HDRP bp) = PACK a 1)
    (ha8 : a % 8 = 0) (ha16 : 16 ≤ a)
    (hb8 : b % 8 = 0) (hb16 : 16 ≤ b) (hab32 : a + b < 2 ^ 32)
    (hpf : READ s.mem (bp - 8) = PACK pa 1)
    (hph : READ s.mem (HDRP q) = PACK pa 1)
    (hpa8 : pa % 8 = 0) (hpa : 8 ≤ pa) (hpa32 : pa < 2 ^ 32)
    (hbp : pa + 8 ≤ bp) (hq : q + pa = bp)
    (hnhd : READ s.mem (HDRP (bp + a)) = PACK b 0)
    (hnn : READ s.mem (NEXTP (bp + a)) = 0)
    (hnp : READ s.mem (PREVP (bp + a)) = 0) :
    mm_free s bp = { s with
      mem := WRITE (WRITE (WRITE (WRITE (WRITE (WRITE s.mem
        (HDRP bp) (PACK a 0)) (bp + a - 8) (PACK a 0))
        (HDRP bp) (PACK (a + b) 0)) (bp + a + b - 8) (PACK (a + b) 0))
        (PREVP bp) 0) (NEXTP bp) 0,
      root := bp } := by
  have ha32 : a < 2 ^ 32 := by omega
  have hb32 : b < 2 ^ 32 := by omega
  have hsz : GET_SIZE s.mem (HDRP bp) = a :=
    GET_SIZE_of_read s.mem (HDRP bp) a 1 hhdr ha8 ha32 (by norm_num)
  have hftr : FTRP (WRITE s.mem (HDRP bp) (PACK a 0)) bp = bp + a - 8 := by
    rw [FTRP, GET_SIZE_WRITE_pack s.mem (HDRP bp) a 0 ha8 ha32 (by norm_num)]
    simp only [DSIZE]
  set m2 := WRITE (WRITE s.mem (HDRP bp) (PACK a 0)) (bp + a - 8) (PACK a 0) with hm2
  have hr1 : READ m2 (bp - 8) = PACK pa 1 := by
    rw [hm2, READ_WRITE_ne _ _ _ _ (by omega),
      READ_WRITE_ne _ _ _ _ (by simp only [HDRP, WSIZE]; omega), hpf]
  have hr2 : READ m2 (HDRP q) = PACK pa 1 := by
    rw [hm2, READ_WRITE_ne _ _ _ _ (by simp only [HDRP, WSIZE]; omega),
      READ_WRITE_ne _ _ _ _ (by simp only [HDRP, WSIZE]; omega), hph]
  have hprevb : PREV_BLKP m2 bp = q := by
    rw [PREV_BLKP, show bp - DSIZE = bp - 8 by simp only [DSIZE],
      GET_SIZE_of_read m2 (bp - 8) pa 1 hr1 hpa8 hpa32 (by norm_num)]
    omega
  have hhd2 : READ m2 (HDRP bp) = PACK a 0 := by
    rw [hm2, READ_WRITE_ne _ _ _ _ (by simp only [HDRP, WSIZE]; omega),
      READ_WRITE_self, Nat.mod_eq_of_lt (pack_lt a 0 ha8 ha32 (by norm_num))]
  have hsz2 : GET_SIZE m2 (HDRP bp) = a :=
    GET_SIZE_of_read m2 (HDRP bp) a 0 hhd2 ha8 ha32 (by norm_num)
  have hnextb : NEXT_BLKP m2 bp = bp + a := by
    rw [NEXT_BLKP, show bp - WSIZE = HDRP bp by rw [HDRP], hsz2]
  have hftrp : FTRP m2 q = bp - 8 := by
    rw [FTRP, GET_SIZE_of_read m2 (HDRP q) pa 1 hr2 hpa8 hpa32 (by norm_num)]
    simp only [DSIZE]
    omega
  have hpalloc : GET_ALLOC m2 (bp - 8) = 1 :=
    GET_ALLOC_of_read m2 (bp - 8) pa 1 hr1 hpa8 (by norm_num)
  have hnhd2 : READ m2 (HDRP (bp + a)) = PACK b 0 := by
    rw [hm2, READ_WRITE_ne _ _ _ _ (by simp only [HDRP, WSIZE]; omega),
      READ_WRITE_ne _ _ _ _ (by simp only [HDRP, WSIZE]; omega), hnhd]
  have hnalloc : GET_ALLOC m2 (HDRP (bp + a)) = 0 :=
    GET_ALLOC_of_read m2 (HDRP (bp + a)) b 0 hnhd2 hb8 (by norm_num)
  have hnsz : GET_SIZE m2 (HDRP (bp + a)) = b :=
    GET_SIZE_of_read m2 (HDRP (bp + a)) b 0 hnhd2 hb8 hb32 (by norm_num)
  have hfn : READ m2 (NEXTP (bp + a)) = 0 := by
    rw [hm2, NEXTP, READ_WRITE_ne _ _ _ _ (by omega),
      READ_WRITE_ne _ _ _ _ (by simp only [HDRP, WSIZE]; omega)]
    exact hnn
  have hfp : READ m2 (PREVP (bp + a)) = 0 := by
    rw [hm2, PREVP, READ_WRITE_ne _ _ _ _ (by simp only [WSIZE]; omega),
      READ_WRITE_ne _ _ _ _ (by simp only [HDRP, WSIZE]; omega)]
    rw [show bp + a + WSIZE = PREVP (bp + a) by rw [PREVP]]
    exact hnp
  have hfb : fb_patching m2 (bp + a) s.root = (m2, 0) :=
    fb_patching_null m2 (bp + a) s.root hfp hfn
  have hftr3 : FTRP (WRITE m2 (HDRP bp) (PACK (a + b) 0)) (bp + a) =
      bp + a + b - 8 := by
    rw [FTRP]
    rw [GET_SIZE_of_read _ (HDRP (bp + a)) b 0 (by
        rw [READ_WRITE_ne _ _ _ _ (by simp only [HDRP, WSIZE]; omega)]
        exact hnhd2) hb8 hb32 (by norm_num)]
    simp only [DSIZE]
  have hhf : handle_free m2 s.root bp =
      (WRITE (WRITE (WRITE (WRITE m2 (HDRP bp) (PACK (a + b) 0))
        (bp + a + b - 8) (PACK (a + b) 0)) (PREVP bp) 0) (NEXTP bp) 0, bp, bp) := by
    rw [handle_free]
    simp only [hprevb, hnextb, hftrp, hpalloc, hnalloc, hsz2]
    rw [if_neg (by simp), if_pos ⟨one_ne_zero, trivial⟩]
    simp only [hfb, hnsz, hftr3]
    rw [add_free_root_zero]
  rw [mm_free]
  simp only [hsz, hftr, hhf]

/-- Freeing a block whose previous neighbour is a free block with null
stored links and whose next neighbour is allocated (case 3 of handle_free)
merges backward: the previous block's header and the freed block's footer
receive the summed size, and the merged block, whose identity is the
previous block's address `q`, becomes the free-list head. -/
theorem mm_free_prev_free (s : AState) (bp b pa q : Nat)
    (hhdr : READ s.mem (HDRP bp) = PACK b 1)
    (hb8 : b % 8 = 0) (hb16 : 16 ≤ b)
    (hpa8 : pa % 8 = 0) (hpa16 : 16 ≤ pa) (hab32 : pa + b < 2 ^ 32)
    (hpf : READ s.mem (bp - 8) = PACK pa 0)
    (hph : READ s.mem (HDRP q) = PACK pa 0)
    (hpn : READ s.mem (NEXTP q) = 0)
    (hpp : READ s.mem (PREVP q) = 0)
    (hbp : pa + 8 ≤ bp) (hq : q + pa = bp)
    (hnh : GET_ALLOC s.mem (HDRP (bp + b)) = 1) :
    mm_free s bp = { s with
      mem := WRITE (WRITE (WRITE (WRITE (WRITE (WRITE s.mem
        (HDRP bp) (PACK b 0)) (bp + b - 8) (PACK b 0))
        (HDRP q) (PACK (b + pa) 0)) (bp + b - 8) (PACK (b + pa) 0))
        (PREVP q) 0) (NEXTP q) 0,
      root := q } := by
  have hb32 : b < 2 ^ 32 := by omega
  have hpa32 : pa < 2 ^ 32 := by omega
  have hsz : GET_SIZE s.mem (HDRP bp) = b :=
    GET_SIZE_of_read s.mem (HDRP bp) b 1 hhdr hb8 hb32 (by norm_num)
  have hftr : FTRP (WRITE s.mem (HDRP bp) (PACK b 0)) bp = bp + b - 8 := by
    rw [FTRP, GET_SIZE_WRITE_pack s.mem (HDRP bp) b 0 hb8 hb32 (by norm_num)]
    simp only [DSIZE]
  set m2 := WRITE (WRITE s.mem (HDRP bp) (PACK b 0)) (bp + b - 8) (PACK b 0) with hm2
  have hr1 : READ m2 (bp - 8) = PACK pa 0 := by
    rw [hm2, READ_WRITE_ne _ _ _ _ (by omega),
      READ_WRITE_ne _ _ _ _ (by simp only [HDRP, WSIZE]; omega), hpf]
  have hr2 : READ m2 (HDRP q) = PACK pa 0 := by
    rw [hm2, READ_WRITE_ne _ _ _ _ (by simp only [HDRP, WSIZE]; omega),
      READ_WRITE_ne _ _ _ _ (by simp only [HDRP, WSIZE]; omega), hph]
  have hprevb : PREV_BLKP m2 bp = q := by
    rw [PREV_BLKP, show bp - DSIZE = bp - 8 by simp only [DSIZE],
      GET_SIZE_of_read m2 (bp - 8) pa 0 hr1 hpa8 hpa32 (by norm_num)]
    omega
  have hhd2 : READ m2 (HDRP bp) = PACK b 0 := by
    rw [hm2, READ_WRITE_ne _ _ _ _ (by simp only [HDRP, WSIZE]; omega),
      READ_WRITE_self, Nat.mod_eq_of_lt (pack_lt b 0 hb8 hb32 (by norm_num))]
  have hsz2 : GET_SIZE m2 (HDRP bp) = b :=
    GET_SIZE_of_read m2 (HDRP bp) b 0 hhd2 hb8 hb32 (by norm_num)
  have hnextb : NEXT_BLKP m2 bp = bp + b := by
    rw [NEXT_BLKP, show bp - WSIZE = HDRP bp by rw [HDRP], hsz2]
  have hftrp : FTRP m2 q = bp - 8 := by
    rw [FTRP, GET_SIZE_of_read m2 (HDRP q) pa 0 hr2 hpa8 hpa32 (by norm_num)]
    simp only [DSIZE]
    omega
  have hpalloc : GET_ALLOC m2 (bp - 8) = 0 :=
    GET_ALLOC_of_read m2 (bp - 8) pa 0 hr1 hpa8 (by norm_num)
  have hnalloc : GET_ALLOC m2 (HDRP (bp + b)) = 1 := by
    rw [GET_ALLOC, hm2, READ_WRITE_ne _ _ _ _ (by simp only [HDRP, WSIZE]; omega),
      READ_WRITE_ne _ _ _ _ (by simp only [HDRP, WSIZE]; omega)]
    exact hnh
  have hpsz : GET_SIZE m2 (HDRP q) = pa :=
    GET_SIZE_of_read m2 (HDRP q) pa 0 hr2 hpa8 hpa32 (by norm_num)
  have hfn : READ m2 (NEXTP q) = 0 := by
    rw [hm2, NEXTP, READ_WRITE_ne _ _ _ _ (by omega),
      READ_WRITE_ne _ _ _ _ (by simp only [HDRP, WSIZE]; omega)]
    rw [show q = NEXTP q by rw [NEXTP]]
    exact hpn
  have hfp : READ m2 (PREVP q) = 0 := by
    rw [hm2, PREVP, READ_WRITE_ne _ _ _ _ (by simp only [WSIZE]; omega),
      READ_WRITE_ne _ _ _ _ (by simp only [HDRP, WSIZE]; omega)]
    rw [show q + WSIZE = PREVP q by rw [PREVP]]
    exact hpp
  have hfb : fb_patching m2 q s.root = (m2, 0) :=
    fb_patching_null m2 q s.root hfp hfn
  have hftr3 : FTRP (WRITE m2 (HDRP q) (PACK (b + pa) 0)) bp = bp + b - 8 := by
    rw [FTRP]
    rw [GET_SIZE_of_read _ (HDRP bp) b 0 (by
        rw [READ_WRITE_ne _ _ _ _ (by simp only [HDRP, WSIZE]; omega)]
        exact hhd2) hb8 hb32 (by norm_num)]
    simp only [DSIZE]
  have hhf : handle_free m2 s.root bp =
      (WRITE (WRITE (WRITE (WRITE m2 (HDRP q) (PACK (b + pa) 0))
        (bp + b - 8) (PACK (b + pa) 0)) (PREVP q) 0)
        (NEXTP q) 0, q, q) := by
    rw [handle_free]
    simp only [hprevb, hnextb, hftrp, hpalloc, hnalloc, hsz2]
    rw [if_neg (by simp), if_neg (by simp), if_pos ⟨trivial, one_ne_zero⟩]
    simp only [hfb, hpsz, hftr3]
    rw [add_free_root_zero]
  rw [mm_free]
  simp only [hsz, hftr, hhf]

/-- C6: for a pair of address-adjacent allocated blocks of sizes `a` (at
payload address `p`) and `b` (at `p + a`) whose other neighbours are
allocated, freeing both blocks in either order leaves a single free block
of size `a + b` whose address is the lower block's address `p`: its header
at `HDRP p` and its footer at `p + a + b - 8` carry `pack(a + b, free)`,
and the merged block (identified by the lower address) heads the free
list. -/
theorem free_adjacent_pair_coalesces (s : AState) (p a b la : Nat)
    (hroot : s.root = 0)
    (hlh : READ s.mem (HDRP (p - la)) = PACK la 1)
    (hlf : READ s.mem (p - 8) = PACK la 1)
    (hla8 : la % 8 = 0) (hla : 8 ≤ la) (hla32 : la < 2 ^ 32)
    (hp : la + 8 ≤ p)
    (hah : READ s.mem (HDRP p) = PACK a 1)
    (haf : READ s.mem (p + a - 8) = PACK a 1)
    (hbh : READ s.mem (HDRP (p + a)) = PACK b 1)
    (hbf : READ s.mem (p + a + b - 8) = PACK b 1)
    (ha8 : a % 8 = 0) (ha16 : 16 ≤ a)
    (hb8 : b % 8 = 0) (hb16 : 16 ≤ b) (hab32 : a + b < 2 ^ 32)
    (hrh : GET_ALLOC s.mem (HDRP (p + a + b)) = 1) :
    (READ (mm_free (mm_free s p) (p + a)).mem (HDRP p) = PACK (a + b) 0 ∧
     READ (mm_free (mm_free s p) (p + a)).mem (p + a + b - 8) = PACK (a + b) 0 ∧
     (mm_free (mm_free s p) (p + a)).root = p) ∧
    (READ (mm_free (mm_free s (p + a)) p).mem (HDRP p) = PACK (a + b) 0 ∧
     READ (mm_free (mm_free s (p + a)) p).mem (p + a + b - 8) = PACK (a + b) 0 ∧
     (mm_free (mm_free s (p + a)) p).root = p) := by
  constructor
  · -- free the lower block first, then the upper block
    have hnhB : GET_ALLOC s.mem (HDRP (p + a)) = 1 :=
      GET_ALLOC_of_read s.mem (HDRP (p + a)) b 1 hbh hb8 (by norm_num)
    have h1 : mm_free s p = { s with
        mem := WRITE (WRITE (WRITE (WRITE s.mem (HDRP p) (PACK a 0))
          (p + a - 8) (PACK a 0)) (PREVP p) 0) (NEXTP p) 0,
        root := p } :=
      mm_free_both_alloc s p a la (p - la) hah ha8 ha16 (by omega) hlf hlh
        hla8 hla hla32 hp (by omega) hnhB hroot
    set M1c := WRITE (WRITE (WRITE (WRITE s.mem (HDRP p) (PACK a 0))
      (p + a - 8) (PACK a 0)) (PREVP p) 0) (NEXTP p) 0 with hM1c
    have hx1 : READ M1c (HDRP (p + a)) = PACK b 1 := by
      rw [hM1c, READ_WRITE_ne _ _ _ _ (by simp only [HDRP, NEXTP, WSIZE]; omega),
        READ_WRITE_ne _ _ _ _ (by simp only [HDRP, PREVP, WSIZE]; omega),
        READ_WRITE_ne _ _ _ _ (by simp only [HDRP, WSIZE]; omega),
        READ_WRITE_ne _ _ _ _ (by simp only [HDRP, WSIZE]; omega), hbh]
    have hx2 : READ M1c (p + a - 8) = PACK a 0 := by
      rw [hM1c, READ_WRITE_ne _ _ _ _ (by simp only [NEXTP]; omega),
        READ_WRITE_ne _ _ _ _ (by simp only [PREVP, WSIZE]; omega),
        READ_WRITE_self, Nat.mod_eq_of_lt (pack_lt a 0 ha8 (by omega) (by norm_num))]
    have hx3 : READ M1c (HDRP p) = PACK a 0 := by
      rw [hM1c, READ_WRITE_ne _ _ _ _ (by simp only [HDRP, NEXTP, WSIZE]; omega),
        READ_WRITE_ne _ _ _ _ (by simp only [HDRP, PREVP, WSIZE]; omega),
        READ_WRITE_ne _ _ _ _ (by simp only [HDRP, WSIZE]; omega),
        READ_WRITE_self, Nat.mod_eq_of_lt (pack_lt a 0 ha8 (by omega) (by norm_num))]
    have hx4 : READ M1c (NEXTP p) = 0 := by
      rw [hM1c, READ_WRITE_self, Nat.zero_mod]
    have hx5 : READ M1c (PREVP p) = 0 := by
      rw [hM1c, READ_WRITE_ne _ _ _ _ (by simp only [NEXTP, PREVP, WSIZE]; omega),
        READ_WRITE_self, Nat.zero_mod]
    have hx6 : GET_ALLOC M1c (HDRP (p + a + b)) = 1 := by
      rw [GET_ALLOC, hM1c,
        READ_WRITE_ne _ _ _ _ (by simp only [HDRP, NEXTP, WSIZE]; omega),
        READ_WRITE_ne _ _ _ _ (by simp only [HDRP, PREVP, WSIZE]; omega),
        READ_WRITE_ne _ _ _ _ (by simp only [HDRP, WSIZE]; omega),
        READ_WRITE_ne _ _ _ _ (by simp only [HDRP, WSIZE]; omega)]
      exact hrh
    have h2 := mm_free_prev_free { s with mem := M1c, root := p } (p + a) b a p
      hx1 hb8 hb16 ha8 ha16 hab32 hx2 hx3 hx4 hx5 (by omega) rfl hx6
    have hmem2 : (mm_free (mm_free s p) (p + a)).mem =
        WRITE (WRITE (WRITE (WRITE (WRITE (WRITE M1c
          (HDRP (p + a)) (PACK b 0)) (p + a + b - 8) (PACK b 0))
          (HDRP p) (PACK (b + a) 0)) (p + a + b - 8) (PACK (b + a) 0))
          (PREVP p) 0) (NEXTP p) 0 := by
      rw [h1, h2]
    have hroot2 : (mm_free (mm_free s p) (p + a)).root = p := by
      rw [h1, h2]
    refine ⟨?_, ?_, hroot2⟩
    · rw [hmem2, READ_WRITE_ne _ _ _ _ (by simp only [HDRP, NEXTP, WSIZE]; omega),
        READ_WRITE_ne _ _ _ _ (by simp only [HDRP, PREVP, WSIZE]; omega),
        READ_WRITE_ne _ _ _ _ (by simp only [HDRP, WSIZE]; omega),
        READ_WRITE_self,
        Nat.mod_eq_of_lt (pack_lt (b + a) 0 (by omega) (by omega) (by norm_num)),
        Nat.add_comm b a]
    · rw [hmem2, READ_WRITE_ne _ _ _ _ (by simp only [NEXTP]; omega),
        READ_WRITE_ne _ _ _ _ (by simp only [PREVP, WSIZE]; omega),
        READ_WRITE_self,
        Nat.mod_eq_of_lt (pack_lt (b + a) 0 (by omega) (by omega) (by norm_num)),
        Nat.add_comm b a]
  · -- free the upper block first, then the lower block
    have h1 : mm_free s (p + a) = { s with
        mem := WRITE (WRITE (WRITE (WRITE s.mem (HDRP (p + a)) (PACK b 0))
          (p + a + b - 8) (PACK b 0)) (PREVP (p + a)) 0) (NEXTP (p + a)) 0,
        root := p + a } :=
      mm_free_both_alloc s (p + a) b a p hbh hb8 hb16 (by omega) haf hah
        ha8 (by omega) (by omega) (by omega) rfl hrh hroot
    set M1d := WRITE (WRITE (WRITE (WRITE s.mem (HDRP (p + a)) (PACK b 0))
      (p + a + b - 8) (PACK b 0)) (PREVP (p + a)) 0) (NEXTP (p + a)) 0 with hM1d
    have hy1 : READ M1d (HDRP p) = PACK a 1 := by
      rw [hM1d, READ_WRITE_ne _ _ _ _ (by simp only [HDRP, NEXTP, WSIZE]; omega),
        READ_WRITE_ne _ _ _ _ (by simp only [HDRP, PREVP, WSIZE]; omega),
        READ_WRITE_ne _ _ _ _ (by simp only [HDRP, WSIZE]; omega),
        READ_WRITE_ne _ _ _ _ (by simp only [HDRP, WSIZE]; omega), hah]
    have hy2 : READ M1d (p - 8) = PACK la 1 := by
      rw [hM1d, READ_WRITE_ne _ _ _ _ (by simp only [NEXTP]; omega),
        READ_WRITE_ne _ _ _ _ (by simp only [PREVP, WSIZE]; omega),
        READ_WRITE_ne _ _ _ _ (by omega),
        READ_WRITE_ne _ _ _ _ (by simp only [HDRP, WSIZE]; omega), hlf]
    have hy3 : READ M1d (HDRP (p - la)) = PACK la 1 := by
      rw [hM1d, READ_WRITE_ne _ _ _ _ (by simp only [HDRP, NEXTP, WSIZE]; omega),
        READ_WRITE_ne _ _ _ _ (by simp only [HDRP, PREVP, WSIZE]; omega),
        READ_WRITE_ne _ _ _ _ (by simp only [HDRP, WSIZE]; omega),
        READ_WRITE_ne _ _ _ _ (by simp only [HDRP, WSIZE]; omega), hlh]
    have hy4 : READ M1d (HDRP (p + a)) = PACK b 0 := by
      rw [hM1d, READ_WRITE_ne _ _ _ _ (by simp only [HDRP, NEXTP, WSIZE]; omega),
        READ_WRITE_ne _ _ _ _ (by simp only [HDRP, PREVP, WSIZE]; omega),
        READ_WRITE_ne _ _ _ _ (by simp only [HDRP, WSIZE]; omega),
        READ_WRITE_self, Nat.mod_eq_of_lt (pack_lt b 0 hb8 (by omega) (by norm_num))]
    have hy5 : READ M1d (NEXTP (p + a)) = 0 := by
      rw [hM1d, READ_WRITE_self, Nat.zero_mod]
    have hy6 : READ M1d (PREVP (p + a)) = 0 := by
      rw [hM1d, READ_WRITE_ne _ _ _ _ (by simp only [NEXTP, PREVP, WSIZE]; omega),
        READ_WRITE_self, Nat.zero_mod]
    have h2 := mm_free_next_free { s with mem := M1d, root := p + a } p a b la
      (p - la) hy1 ha8 ha16 hb8 hb16 hab32 hy2 hy3 hla8 hla hla32 hp (by omega)
      hy4 hy5 hy6
    have hmem2 : (mm_free (mm_free s (p + a)) p).mem =
        WRITE (WRITE (WRITE (WRITE (WRITE (WRITE M1d
          (HDRP p) (PACK a 0)) (p + a - 8) (PACK a 0))
          (HDRP p) (PACK (a + b) 0)) (p + a + b - 8) (PACK (a + b) 0))
          (PREVP p) 0) (NEXTP p) 0 := by
      rw [h1, h2]
    have hroot2 : (mm_free (mm_free s (p + a)) p).root = p := by
      rw [h1, h2]
    refine ⟨?_, ?_, hroot2⟩
    · rw [hmem2, READ_WRITE_ne _ _ _ _ (by simp only [HDRP, NEXTP, WSIZE]; omega),
        READ_WRITE_ne _ _ _ _ (by simp only [HDRP, PREVP, WSIZE]; omega),
        READ_WRITE_ne _ _ _ _ (by simp only [HDRP, WSIZE]; omega),
        READ_WRITE_self,
        Nat.mod_eq_of_lt (pack_lt (a + b) 0 (by omega) (by omega) (by norm_num))]
    · rw [hmem2, READ_WRITE_ne _ _ _ _ (by simp only [NEXTP]; omega),
        READ_WRITE_ne _ _ _ _ (by simp only [PREVP, WSIZE]; omega),
        READ_WRITE_self,
        Nat.mod_eq_of_lt (pack_lt (a + b) 0 (by omega) (by omega) (by norm_num))]

/-- Concrete store for the witness of C6: prologue at payload address 8,
two adjacent allocated 16-byte blocks at 16 and 32, epilogue header at 44. -/
def memW6 : Nat → Nat := fun q =>
  if q = 4 then 9 else if q = 8 then 9 else if q = 12 then 17 else
  if q = 24 then 17 else if q = 28 then 17 else if q = 40 then 17 else
  if q = 44 then 1 else 0

/-- Concrete state for the witness of C6. -/
def stateW6 : AState := { mem := memW6, brk := 48, cap := 1000, root := 0 }

/-- Witness for C6: freeing the adjacent 16-byte blocks at 16 and 32 in
either order yields one free block of size 32 at address 16. -/
theorem free_adjacent_pair_coalesces_witness :
    (READ (mm_free (mm_free stateW6 16) (16 + 16)).mem (HDRP 16) =
       PACK (16 + 16) 0 ∧
     READ (mm_free (mm_free stateW6 16) (16 + 16)).mem (16 + 16 + 16 - 8) =
       PACK (16 + 16) 0 ∧
     (mm_free (mm_free stateW6 16) (16 + 16)).root = 16) ∧
    (READ (mm_free (mm_free stateW6 (16 + 16)) 16).mem (HDRP 16) =
       PACK (16 + 16) 0 ∧
     READ (mm_free (mm_free stateW6 (16 + 16)) 16).mem (16 + 16 + 16 - 8) =
       PACK (16 + 16) 0 ∧
     (mm_free (mm_free stateW6 (16 + 16)) 16).root = 16) :=
  free_adjacent_pair_coalesces stateW6 16 16 16 8 (by decide) (by decide)
    (by decide) (by decide) (by decide) (by decide) (by decide) (by decide)
    (by decide) (by decide) (by decide) (by decide) (by decide) (by decide)
    (by decide) (by decide) (by decide)
